import Mathlib

/-!
Verification development for the crush-npm repository.

This file gives a shallow embedding of:
- the platform package builder (scripts/build.sh),
- the two launcher wrapper variants of bin/crush.js reproduced in
  CONTRIBUTING.md (the earlier one using the @anthropic-ai/crush-corp scope
  and the later one using the @offlinecli/crush scope with the disguised
  crush.bin handling),
- the non-interactive quick mode of the setup wizard (bin/setup.js),

together with theorems settling the specification's claims about them.

Modelling conventions:
- An archive is its validity flag plus the list of member file paths, each
  path a list of components.
- Filesystem state relevant to a component is made explicit and passed
  around; effects of external tools (curl, tar, unzip, find, mv, rm) are
  reflected as pure transformations of that state.
- Exit statuses are natural numbers; only zero versus non-zero matters to
  the claims, and the concrete non-zero values used (1 for the usage error,
  2 for a set -e abort caused by a failing extraction chain) stand for the
  failing command's status.
-/

/-- One row of the build script's platform mapping tables
(PLATFORMS, OS_MAP unpacked and CPU_MAP unpacked, build.sh lines 28-53). -/
structure Platform where
  archiveSuffix : String
  npmPlatform : String
  os : String
  cpu : String

deriving instance DecidableEq for Platform

/-- The fixed 6-descriptor set: two architectures by three operating systems. -/
def platforms : List Platform :=
  [⟨"Linux_x86_64", "linux-x64", "linux", "x64"⟩,
   ⟨"Linux_arm64", "linux-arm64", "linux", "arm64"⟩,
   ⟨"Darwin_x86_64", "darwin-x64", "darwin", "x64"⟩,
   ⟨"Darwin_arm64", "darwin-arm64", "darwin", "arm64"⟩,
   ⟨"Windows_x86_64", "win32-x64", "win32", "x64"⟩,
   ⟨"Windows_arm64", "win32-arm64", "win32", "arm64"⟩]

/-- build.sh lines 64-70: the binary name is fixed per OS family. -/
def binaryNameFor (os : String) : String :=
  if os = "win32" then "crush.exe" else "crush"

/-- build.sh lines 64-70: archive file name derived from version and suffix. -/
def archiveNameFor (version : String) (p : Platform) : String :=
  if p.os = "win32" then "crush_" ++ version ++ "_" ++ p.archiveSuffix ++ ".zip"
  else "crush_" ++ version ++ "_" ++ p.archiveSuffix ++ ".tar.gz"

/-- An abstract release archive: whether the file is a readable archive at
all, and the member file paths it holds (as component lists). -/
structure Archive where
  valid : Bool
  entries : List (List String)

deriving instance DecidableEq for Archive

/-- Last component of a member path (its file name). -/
def pathFile (q : List String) : String := q.getLastD ""

/-- First component of a member path (its top-level entry). -/
def pathTop (q : List String) : String := q.headD ""

/-- build.sh line 102: tar with a one-component wildcard member pattern and
strip-components=1 succeeds exactly when some member sits one directory deep
with the expected file name (GNU tar member patterns do not let a star cross
a slash). -/
def stratNestedOkTar (a : Archive) (bin : String) : Bool :=
  a.valid && a.entries.any (fun q => q.length == 2 && pathFile q == bin)

/-- build.sh line 103: tar extraction of the member named exactly like the
binary at archive root. -/
def stratRootOkTar (a : Archive) (bin : String) : Bool :=
  a.valid && a.entries.any (fun q => q == [bin])

/-- build.sh line 96: unzip -j with a wildcard member pattern; Info-ZIP
wildcards cross directory separators, so any nested member with the expected
file name matches. -/
def stratNestedOkZip (a : Archive) (bin : String) : Bool :=
  a.valid && a.entries.any (fun q => 2 ≤ q.length && pathFile q == bin)

/-- build.sh line 97: unzip of the member at archive root. -/
def stratRootOkZip (a : Archive) (bin : String) : Bool :=
  a.valid && a.entries.any (fun q => q == [bin])

/-- The find -name glob of build.sh line 106: whether a name begins with the
six characters crush_ (spelled on the character list so that it reduces). -/
def crushDirGlob (s : String) : Bool :=
  s.toList.take 6 == "crush_".toList

/-- build.sh lines 104-106, the tar fallback: extract everything into the
package directory, move every file named like the binary into bin/, then
remove only the top-level directories whose name starts with crush_.
The result is the list of files left in the package directory. -/
def tarFallbackContents (a : Archive) (bin : String) : List (List String) :=
  (if a.entries.any (fun q => pathFile q == bin) then [["bin", bin]] else []) ++
    a.entries.filter
      (fun q => pathFile q != bin && !(2 ≤ q.length && crushDirGlob (pathTop q)))

/-- build.sh lines 98-100, the zip fallback: extract everything into a temp
directory, move the binary into bin/, then remove the whole temp directory. -/
def zipFallbackContents (a : Archive) (bin : String) : List (List String) :=
  if a.entries.any (fun q => pathFile q == bin) then [["bin", bin]] else []

/-- Outcome of the three-strategy extraction chain of build.sh lines 95-107.
Because the script runs under set -euo pipefail, a chain whose final fallback
command also fails kills the whole script; that is the fatal case. -/
inductive ExtractOutcome
  | fatal
  | ok (contents : List (List String))

deriving instance DecidableEq for ExtractOutcome

/-- The non-Windows extraction chain (build.sh lines 101-107). -/
def extractTar (a : Archive) (bin : String) : ExtractOutcome :=
  if stratNestedOkTar a bin then .ok [["bin", bin]]
  else if stratRootOkTar a bin then .ok [["bin", bin]]
  else if a.valid then .ok (tarFallbackContents a bin)
  else .fatal

/-- The Windows extraction chain (build.sh lines 95-100). -/
def extractZip (a : Archive) (bin : String) : ExtractOutcome :=
  if stratNestedOkZip a bin then .ok [["bin", bin]]
  else if stratRootOkZip a bin then .ok [["bin", bin]]
  else if a.valid then .ok (zipFallbackContents a bin)
  else .fatal

/-- Per-platform external conditions: whether the archive file is already
cached on disk, whether curl would succeed, and the archive obtained either
way. -/
structure PlatFetch where
  cached : Bool
  downloadOk : Bool
  archive : Archive

deriving instance DecidableEq for PlatFetch

/-- build.sh lines 79-86: the download step. First component: whether an
archive file remains on disk afterwards; second: whether the loop proceeds
past the step (false models the continue after rm -f of the partial file). -/
def downloadStep (f : PlatFetch) : Bool × Bool :=
  if f.cached then (true, true)
  else if f.downloadOk then (true, true)
  else (false, false)

/-- Outcome of one loop iteration of build.sh (one platform). -/
inductive OneOutcome
  | skipDownload
  | fatal
  | skipVerify
  | built (contents : List (List String))

deriving instance DecidableEq for OneOutcome

/-- One iteration of the platform loop (build.sh lines 58-153): download or
reuse the cached archive, run the extraction chain, then verify that
bin/<binary> exists (build.sh lines 112-116; on failure the partial package
directory is removed and the loop continues). The chmod of line 109 carries
`|| true` and does not affect the modelled state. -/
def buildOne (p : Platform) (f : PlatFetch) : OneOutcome :=
  let bin := binaryNameFor p.os
  if !f.cached && !f.downloadOk then .skipDownload
  else
    match (if p.os = "win32" then extractZip f.archive bin else extractTar f.archive bin) with
    | .fatal => .fatal
    | .ok contents =>
        if contents.contains ["bin", bin] then .built contents else .skipVerify

/-- Name of a platform package directory (build.sh line 89). -/
def pkgDirName (p : Platform) : String := "crush-corp-" ++ p.npmPlatform

/-- Accumulated state of the platform loop: the BUILT_PLATFORMS summary, the
package directories present under dist/packages with their file lists, and
the set -e abort status if the run died. -/
structure RunState where
  builtList : List String
  pkgs : List (String × List (List String))
  fatalCode : Option Nat

deriving instance DecidableEq for RunState

/-- The platform loop. A fatal extraction chain stops the whole script (its
partially extracted package directory stays behind, modelled by its name with
an unmodelled file list); download and verify failures are per-platform
skips. -/
def processPlatforms : List (Platform × PlatFetch) → RunState → RunState
  | [], st => st
  | (p, f) :: rest, st =>
    match buildOne p f with
    | .skipDownload => processPlatforms rest st
    | .skipVerify => processPlatforms rest st
    | .fatal => { st with fatalCode := some 2, pkgs := st.pkgs ++ [(pkgDirName p, [])] }
    | .built c =>
        processPlatforms rest
          { st with builtList := st.builtList ++ [p.npmPlatform],
                    pkgs := st.pkgs ++ [(pkgDirName p, c)] }

/-- The root package.json: version, the optional-dependency map, and the
remaining fields (carried through untouched). -/
structure Manifest where
  version : String
  optionalDependencies : List (String × String)
  otherFields : List (String × String)

deriving instance DecidableEq for Manifest

/-- build.sh lines 161-171: set the version and rewrite every
optional-dependency entry to it. -/
def updateManifest (m : Manifest) (v : String) : Manifest :=
  { m with version := v,
           optionalDependencies := m.optionalDependencies.map (fun kv => (kv.1, v)) }

/-- Rendering of an association list, one entry per line. -/
def serializeEntries : List (String × String) → String
  | [] => ""
  | (k, v) :: rest => k ++ ": " ++ v ++ "\n" ++ serializeEntries rest

/-- The bytes written for a manifest. This stands for
JSON.stringify(pkg, null, 2) plus a trailing newline: an injective rendering
of the manifest record, so byte equality of files follows from equality of
records. -/
def serializeManifest (m : Manifest) : String :=
  "version: " ++ m.version ++ "\n" ++
    serializeEntries m.optionalDependencies ++ serializeEntries m.otherFields

/-- Result of a whole builder run. -/
structure BuildResult where
  exitCode : Nat
  builtList : List String
  pkgs : List (String × List (List String))
  manifest : Manifest

deriving instance DecidableEq for BuildResult

/-- The whole build script: usage check (build.sh lines 9-19, exit 1 on a
missing or empty version), then the platform loop over a cleaned dist
directory, then — only if the loop was not killed by set -e — the in-place
root manifest rewrite, and exit 0. -/
def buildAll (version : Option String) (items : List (Platform × PlatFetch))
    (m : Manifest) : BuildResult :=
  match version with
  | none => ⟨1, [], [], m⟩
  | some v =>
    if v = "" then ⟨1, [], [], m⟩
    else
      let st := processPlatforms items ⟨[], [], none⟩
      match st.fatalCode with
      | some c => ⟨c, st.builtList, st.pkgs, m⟩
      | none => ⟨0, st.builtList, st.pkgs, updateManifest m v⟩

namespace Corp

/-- The earlier wrapper's scope (CONTRIBUTING.md line 103). -/
def packageScope : String := "@anthropic-ai/crush-corp"

/-- getPlatformPackage (CONTRIBUTING.md lines 108-112). -/
def getPlatformPackage (platform arch : String) : String :=
  packageScope ++ "-" ++ platform ++ "-" ++ arch

/-- Binary name per platform (CONTRIBUTING.md line 121). -/
def binaryName (platform : String) : String :=
  if platform = "win32" then "crush.exe" else "crush"

/-- The ordered candidate paths of the earlier wrapper's findBinary
(CONTRIBUTING.md lines 124-143): conventional nested location (the scope
stripped off the package name), scoped location, hoisted-to-root location,
and the registry-resolution fallback. resolveOracle stands for
require.resolve of the platform package's package.json: when it succeeds it
yields the package directory. Path joining is modelled as plain
concatenation, the dot-dot segments kept literal. -/
def locations (dirname platform arch : String) (resolveOracle : Option String) :
    List String :=
  [some (dirname ++ "/../../crush-corp-" ++ platform ++ "-" ++ arch ++ "/bin/" ++
      binaryName platform),
   some (dirname ++ "/../../@anthropic-ai/crush-corp-" ++ platform ++ "-" ++ arch ++
      "/bin/" ++ binaryName platform),
   some (dirname ++ "/../../../@anthropic-ai/crush-corp-" ++ platform ++ "-" ++ arch ++
      "/bin/" ++ binaryName platform),
   resolveOracle.map (fun d => d ++ "/bin/" ++ binaryName platform)].filterMap id

/-- The earlier wrapper's probe loop (CONTRIBUTING.md lines 145-151): return
the first candidate that exists on the filesystem, null otherwise. The
filesystem is the list of existing paths. -/
def findBinary (fs : List String) (cands : List String) : Option String :=
  cands.find? (fun loc => fs.contains loc)

end Corp

namespace Offline

/-- The later wrapper's scope (CONTRIBUTING.md line 258). -/
def packageScope : String := "@offlinecli/crush"

/-- getBinaryName (CONTRIBUTING.md lines 272-274). -/
def binaryName (isWin : Bool) : String :=
  if isWin then "crush.exe" else "crush"

/-- The ordered candidate base directories of the later wrapper's findBinary
(CONTRIBUTING.md lines 288-304): scoped location, hoisted-to-root location,
and the registry-resolution fallback. There is no conventional nested entry
in this variant. -/
def baseDirs (dirname platform arch : String) (resolveOracle : Option String) :
    List String :=
  [some (dirname ++ "/../../@offlinecli/crush-" ++ platform ++ "-" ++ arch ++ "/bin"),
   some (dirname ++ "/../../../@offlinecli/crush-" ++ platform ++ "-" ++ arch ++ "/bin"),
   resolveOracle.map (fun d => d ++ "/bin")].filterMap id

/-- Filesystem state seen by the launcher: existing files and the files
carrying the executable bit. A path is a pair of its directory and its file
name. -/
structure FileSys where
  files : List (String × String)
  execs : List (String × String)

deriving instance DecidableEq for FileSys

/-- Deletion of a path (the source side of renameSync). -/
def FileSys.removeFile (fs : FileSys) (q : String × String) : FileSys :=
  ⟨fs.files.filter (fun x => decide (x ≠ q)), fs.execs.filter (fun x => decide (x ≠ q))⟩

/-- Creation of a path (the destination side of renameSync; the mode bit is
re-established by the chmod that follows in the code paths modelled). -/
def FileSys.addFile (fs : FileSys) (q : String × String) : FileSys :=
  ⟨q :: fs.files, fs.execs⟩

/-- chmodSync to an executable mode. -/
def FileSys.chmodx (fs : FileSys) (q : String × String) : FileSys :=
  ⟨fs.files, q :: fs.execs⟩

/-- External failure conditions of the later wrapper's findBinary: the
platform family, and whether renameSync or chmodSync throw at a given path. -/
structure Env where
  isWin : Bool
  renameFails : String × String → Bool
  chmodFails : String × String → Bool

/-- The later wrapper's probe loop (CONTRIBUTING.md lines 306-339). For each
candidate directory: use the properly named binary if present; otherwise, if
the disguised crush.bin is present, rename it, chmod it on non-Windows and
return it; if the rename throws, fall back on non-Windows to chmodding the
disguised file in place and returning it; when even that throws (or on
Windows) move on to the next candidate. A chmod that throws right after a
successful rename lands in the same catch, whose chmod of the now-missing
disguised path throws as well, so the loop moves on with the rename kept. -/
def findBinaryFrom (env : Env) (fs : FileSys) :
    List String → Option (String × String) × FileSys
  | [] => (none, fs)
  | d :: rest =>
    let finalPath : String × String := (d, binaryName env.isWin)
    let disguisedPath : String × String := (d, "crush.bin")
    if finalPath ∈ fs.files then (some finalPath, fs)
    else if disguisedPath ∈ fs.files then
      if env.renameFails disguisedPath then
        if !env.isWin && !env.chmodFails disguisedPath then
          (some disguisedPath, fs.chmodx disguisedPath)
        else findBinaryFrom env fs rest
      else
        let fs1 := (fs.removeFile disguisedPath).addFile finalPath
        if env.isWin then (some finalPath, fs1)
        else if env.chmodFails finalPath then findBinaryFrom env fs1 rest
        else (some finalPath, fs1.chmodx finalPath)
    else findBinaryFrom env fs rest

end Offline

/-- The launcher's reaction to a child lifecycle event, as performed by the
handlers both wrapper variants install (CONTRIBUTING.md lines 215-236 and
403-424). -/
inductive ParentAction
  | exitWith (code : Int)
  | raiseSignal (sig : String)

deriving instance DecidableEq for ParentAction

/-- The child exit handler: a signal-terminated child makes the launcher
re-raise the same signal on itself; a normally exited child makes it exit
with the child's code, defaulting to 1 when the code is null. -/
def onChildExit (code : Option Int) (sig : Option String) : ParentAction :=
  match sig with
  | some s => .raiseSignal s
  | none => .exitWith (code.getD 1)

/-- The child error handler: print the message and exit 1. -/
def onChildError : ParentAction := .exitWith 1

/-- The signals for which both wrappers install forwarding handlers. -/
def forwardedSignals : List String := ["SIGINT", "SIGTERM", "SIGHUP"]

/-- The parent-side signal handler: the signal delivered to the child, if
any. Signals outside the installed set keep their default disposition and
are modelled as not forwarded; a handler firing after the child is gone
forwards nothing. -/
def onParentSignal (childKilled : Bool) (sig : String) : Option String :=
  if forwardedSignals.contains sig && !childKilled then some sig else none

namespace Setup

/-- The four provider templates of bin/setup.js (lines 33-122), by own key. -/
def knownProviderKeys : List String :=
  ["azure-openai", "azure-foundry", "openai-compat", "ollama"]

/-- The enumeration of Object.prototype property names a plain object
literal inherits. A bracket lookup at one of these yields a truthy inherited
value (a function, or the prototype object itself) even though the key is
not an own key of the template table. -/
def objectProtoKeys : List String :=
  ["constructor", "hasOwnProperty", "isPrototypeOf", "propertyIsEnumerable",
   "toLocaleString", "toString", "valueOf", "__proto__", "__defineGetter__",
   "__defineSetter__", "__lookupGetter__", "__lookupSetter__"]

/-- State of the configuration directory and file. -/
structure ConfigState where
  dirPresent : Bool
  configContent : Option String

deriving instance DecidableEq for ConfigState

/-- JavaScript default via the or-operator: an absent or empty string picks
the default. -/
def jsDefault (x : Option String) (d : String) : String :=
  match x with
  | some s => if s = "" then d else s
  | none => d

/-- The bytes written for the quick-mode configuration: stands for
JSON.stringify(config, null, 2) of the template instantiated at the given
endpoint and deployment, an injective rendering of the inputs used. -/
def renderQuickConfig (providerType endpoint deployment : String) : String :=
  "provider: " ++ providerType ++ "\nendpoint: " ++ endpoint ++
    "\ndeployment: " ++ deployment

/-- Result of the quick subcommand as observed by its caller: the process
exit status, whether a TypeError escaped quickSetup (to be swallowed by the
top-level catch of main, bin/setup.js line 458), and the resulting
configuration state. -/
structure QuickResult where
  exitCode : Nat
  threw : Bool
  state : ConfigState

deriving instance DecidableEq for QuickResult

/-- quickSetup (bin/setup.js lines 334-373) on the argument list after the
quick subcommand: a missing or empty endpoint prints usage and exits 1
before touching the filesystem. The template lookup at line 349 is a plain
bracket lookup on an object literal: a key that is neither an own key nor
inherited yields undefined and the guard at line 350 exits 1; an inherited
Object.prototype key yields a truthy value, the guard does not fire, and
the call of the undefined template.config at line 359 throws a TypeError
before any mkdir or write — main catches and logs it and the process ends
with status 0. For an own key the configuration directory is created if
needed, the file written, and the process ends with status 0. -/
def quickSetup (args : List String) (st : ConfigState) : QuickResult :=
  let providerType := jsDefault args[0]? "azure-foundry"
  let deployment := jsDefault args[2]? "gpt-4"
  match args[1]? with
  | none => ⟨1, false, st⟩
  | some ep =>
    if ep = "" then ⟨1, false, st⟩
    else if providerType ∈ knownProviderKeys then
      ⟨0, false, ⟨true, some (renderQuickConfig providerType ep deployment)⟩⟩
    else if providerType ∈ objectProtoKeys then ⟨0, true, st⟩
    else ⟨1, false, st⟩

end Setup

/-- A Linux platform descriptor, for concrete scenarios. -/
def linuxPlat : Platform := ⟨"Linux_x86_64", "linux-x64", "linux", "x64"⟩

/-- An archive whose binary sits two levels deep inside a folder whose name
does not start with crush_, next to a second file. -/
def nestedArchive : Archive :=
  ⟨true, [["release", "sub", "crush"], ["release", "LICENSE"]]⟩

/-- A fetch whose download succeeds and whose archive holds the binary one
level deep, the layout the first strategy handles. -/
def goodFetchFor (p : Platform) : PlatFetch :=
  ⟨false, true, ⟨true, [["crush_top", binaryNameFor p.os]]⟩⟩

/-- A fetch whose archive file is cached but unreadable: every extraction
strategy fails on it. -/
def corruptFetch : PlatFetch := ⟨true, true, ⟨false, []⟩⟩

/-- A fetch whose download fails outright. -/
def failFetch : PlatFetch := ⟨false, false, ⟨false, []⟩⟩

/-- All six platforms with well-formed archives. -/
def itemsAllGood : List (Platform × PlatFetch) :=
  platforms.map (fun p => (p, goodFetchFor p))

/-- All six platforms, the linux-x64 archive corrupt, the others fine. -/
def itemsOneCorrupt : List (Platform × PlatFetch) :=
  platforms.map (fun p => (p, if p.npmPlatform = "linux-x64" then corruptFetch else goodFetchFor p))

/-- A small root manifest for concrete scenarios. -/
def sampleManifest : Manifest :=
  ⟨"0.1.0",
   [("@anthropic-ai/crush-corp-linux-x64", "0.1.0"),
    ("@anthropic-ai/crush-corp-win32-x64", "0.1.0")],
   [("name", "@anthropic-ai/crush-corp")]⟩

/-- A platform whose download failed contributes nothing to the loop: the
run over any list with it inserted equals the run over the list without it. -/
theorem processPlatforms_middle_skip (p : Platform) (f : PlatFetch)
    (h : buildOne p f = OneOutcome.skipDownload) :
    ∀ (pre post : List (Platform × PlatFetch)) (st : RunState),
      processPlatforms (pre ++ (p, f) :: post) st = processPlatforms (pre ++ post) st := by
  intro pre
  induction pre with
  | nil => intro post st; simp [processPlatforms, h]
  | cons it rest ih =>
    intro post st
    obtain ⟨q, g⟩ := it
    cases hb : buildOne q g <;> simp [processPlatforms, hb, ih]

/-- Every name in the loop's summary comes from the starting summary or from
a processed platform. -/
theorem processPlatforms_built_mem (items : List (Platform × PlatFetch)) :
    ∀ (st : RunState) (n : String), n ∈ (processPlatforms items st).builtList →
      n ∈ st.builtList ∨ n ∈ items.map (fun it => it.1.npmPlatform) := by
  induction items with
  | nil => intro st n h; exact Or.inl h
  | cons it rest ih =>
    intro st n h
    obtain ⟨q, g⟩ := it
    cases hb : buildOne q g <;> simp only [processPlatforms, hb] at h
    case skipDownload =>
      rcases ih st n h with h1 | h1
      · exact Or.inl h1
      · exact Or.inr (by simp [h1])
    case skipVerify =>
      rcases ih st n h with h1 | h1
      · exact Or.inl h1
      · exact Or.inr (by simp [h1])
    case fatal => exact Or.inl h
    case built c =>
      rcases ih _ n h with h1 | h1
      · rcases List.mem_append.mp h1 with h2 | h2
        · exact Or.inl h2
        · exact Or.inr (by simp [List.mem_singleton.mp h2])
      · exact Or.inr (by simp [h1])

/-- The loop's abort status is either inherited or the status of a failing
extraction chain. -/
theorem processPlatforms_fatal_spec (items : List (Platform × PlatFetch)) :
    ∀ st : RunState, (processPlatforms items st).fatalCode = st.fatalCode ∨
      (processPlatforms items st).fatalCode = some 2 := by
  induction items with
  | nil => intro st; exact Or.inl rfl
  | cons it rest ih =>
    intro st
    obtain ⟨q, g⟩ := it
    cases hb : buildOne q g <;> simp only [processPlatforms, hb]
    case skipDownload => exact ih st
    case skipVerify => exact ih st
    case fatal => exact Or.inr trivial
    case built c => exact ih _

/-- When no platform's extraction chain fails outright, the loop never sets
the abort status. -/
theorem processPlatforms_no_fatal (items : List (Platform × PlatFetch)) :
    (∀ it ∈ items, buildOne it.1 it.2 ≠ OneOutcome.fatal) →
    ∀ st : RunState, (processPlatforms items st).fatalCode = st.fatalCode := by
  induction items with
  | nil => intro _ st; rfl
  | cons it rest ih =>
    intro h st
    obtain ⟨q, g⟩ := it
    have hrest : ∀ it ∈ rest, buildOne it.1 it.2 ≠ OneOutcome.fatal :=
      fun x hx => h x (List.mem_cons_of_mem _ hx)
    cases hb : buildOne q g <;> simp only [processPlatforms, hb]
    case skipDownload => exact ih hrest st
    case skipVerify => exact ih hrest st
    case fatal => exact absurd hb (h (q, g) (List.mem_cons_self _ _))
    case built c => exact ih hrest _

/-- The summary reported by a run with a non-empty version is the loop's
summary. -/
theorem buildAll_builtList (v : String) (hv : ¬ v = "")
    (items : List (Platform × PlatFetch)) (m : Manifest) :
    (buildAll (some v) items m).builtList =
      (processPlatforms items ⟨[], [], none⟩).builtList := by
  simp only [buildAll, if_neg hv]
  cases h : (processPlatforms items ⟨[], [], none⟩).fatalCode <;> simp [h]

/-- C1 counterexample: on a Linux platform, an archive whose binary is nested
two levels deep inside a folder named release (which does not match the
crush_ cleanup pattern) is handled by the fallback strategy, yet the file
release/LICENSE remains in the package directory next to the relocated
binary, so extraneous extracted files do remain. -/
theorem c1_counterexample :
    buildOne linuxPlat ⟨true, true, nestedArchive⟩ =
      OneOutcome.built [["bin", "crush"], ["release", "LICENSE"]] ∧
    ¬ (∀ q ∈ [["bin", "crush"], ["release", "LICENSE"]], q = ["bin", "crush"]) := by
  decide

/-- C1 amended: when the first two strategies fail and the archive is
readable and holds the binary somewhere, the fallback succeeds and relocates
the binary into bin; but on non-Windows platforms the cleanup removes only
files under top-level directories whose name starts with crush_, so every
other extracted file remains; only the Windows (zip) fallback leaves nothing
but the binary. -/
theorem c1_fallback_relocation (a : Archive) (bin : String)
    (hvalid : a.valid = true)
    (hA : stratNestedOkTar a bin = false)
    (hB : stratRootOkTar a bin = false)
    (hbin : a.entries.any (fun q => pathFile q == bin) = true) :
    extractTar a bin = ExtractOutcome.ok (tarFallbackContents a bin) ∧
    ["bin", bin] ∈ tarFallbackContents a bin ∧
    (∀ q ∈ tarFallbackContents a bin, q = ["bin", bin] ∨
      (q ∈ a.entries ∧ pathFile q ≠ bin ∧
        ¬(2 ≤ q.length ∧ crushDirGlob (pathTop q) = true))) ∧
    (∀ q ∈ zipFallbackContents a bin, q = ["bin", bin]) := by
  refine ⟨?_, ?_, ?_, ?_⟩
  · simp [extractTar, hA, hB, hvalid]
  · simp [tarFallbackContents, hbin]
  · intro q hq
    simp only [tarFallbackContents, hbin, if_true, List.mem_append, List.mem_singleton,
      List.mem_filter] at hq
    rcases hq with hq | ⟨hmem, hcond⟩
    · exact Or.inl hq
    · rw [Bool.and_eq_true] at hcond
      refine Or.inr ⟨hmem, ?_, ?_⟩
      · simpa [bne] using hcond.1
      · have h2 := hcond.2
        intro hcontra
        simp [hcontra.1, hcontra.2] at h2
  · intro q hq
    simp only [zipFallbackContents, hbin, if_true, List.mem_singleton] at hq
    exact hq

/-- C1 witness: the amended statement at the concrete nested archive. -/
theorem c1_fallback_relocation_witness :
    ["bin", "crush"] ∈ tarFallbackContents nestedArchive "crush" :=
  (c1_fallback_relocation nestedArchive "crush" (by decide) (by decide) (by decide)
    (by decide)).2.1

/-- C2: a failed archive download for a platform deletes the partial archive
file, produces the skip outcome, makes the whole run behave exactly as if
the platform were absent (so the remaining platforms are processed to
completion exactly as without it, and no package directory for it appears),
and keeps the platform out of the platforms-built summary. -/
theorem c2_download_failure_isolated (p : Platform) (f : PlatFetch)
    (hcache : f.cached = false) (hdl : f.downloadOk = false) :
    downloadStep f = (false, false) ∧
    buildOne p f = OneOutcome.skipDownload ∧
    (∀ (v : Option String) (pre post : List (Platform × PlatFetch)) (m : Manifest),
      buildAll v (pre ++ (p, f) :: post) m = buildAll v (pre ++ post) m) ∧
    (∀ (v : String) (pre post : List (Platform × PlatFetch)) (m : Manifest),
      ¬ v = "" →
      p.npmPlatform ∉ (pre ++ post).map (fun it => it.1.npmPlatform) →
      p.npmPlatform ∉ (buildAll (some v) (pre ++ (p, f) :: post) m).builtList) := by
  have hone : buildOne p f = OneOutcome.skipDownload := by
    simp [buildOne, hcache, hdl]
  have hmid := processPlatforms_middle_skip p f hone
  have hall : ∀ (v : Option String) (pre post : List (Platform × PlatFetch)) (m : Manifest),
      buildAll v (pre ++ (p, f) :: post) m = buildAll v (pre ++ post) m := by
    intro v pre post m
    cases v with
    | none => rfl
    | some v =>
      by_cases hv : v = ""
      · simp [buildAll, hv]
      · simp only [buildAll, if_neg hv, hmid]
  refine ⟨by simp [downloadStep, hcache, hdl], hone, hall, ?_⟩
  intro v pre post m hv hnot hmem
  rw [hall (some v) pre post m, buildAll_builtList v hv] at hmem
  rcases processPlatforms_built_mem (pre ++ post) ⟨[], [], none⟩ p.npmPlatform hmem with h | h
  · simp at h
  · exact hnot h

/-- C2 witness: the isolation statement at a concrete failing download. -/
theorem c2_download_failure_isolated_witness :
    buildAll (some "1.2.3") ([(linuxPlat, goodFetchFor linuxPlat)] ++ (linuxPlat, failFetch) ::
        [(linuxPlat, goodFetchFor linuxPlat)]) sampleManifest =
      buildAll (some "1.2.3") ([(linuxPlat, goodFetchFor linuxPlat)] ++
        [(linuxPlat, goodFetchFor linuxPlat)]) sampleManifest :=
  (c2_download_failure_isolated linuxPlat failFetch rfl rfl).2.2.1 (some "1.2.3")
    [(linuxPlat, goodFetchFor linuxPlat)] [(linuxPlat, goodFetchFor linuxPlat)] sampleManifest

/-- C3 counterexample: a run with a non-empty version in which one
platform's archive is unreadable, so every extraction strategy for it fails.
Under set -euo pipefail the failing extraction chain kills the script: the
exit status is the failing chain's non-zero status, not 0, and the root
manifest rewrite never happens. -/
theorem c3_counterexample :
    (buildAll (some "1.2.3") itemsOneCorrupt sampleManifest).exitCode = 2 ∧
    ¬ (buildAll (some "1.2.3") itemsOneCorrupt sampleManifest).exitCode = 0 ∧
    (buildAll (some "1.2.3") itemsOneCorrupt sampleManifest).manifest = sampleManifest := by
  decide

/-- C3 amended: a missing or empty version argument exits 1 with the usage
message; a platform whose download fails, or whose extraction chain returns
success without yielding the binary, is skipped without aborting the rest;
and the run exits 0 for a non-empty version provided no platform's whole
extraction chain fails — when one does, set -euo pipefail aborts the run
with a non-zero status. -/
theorem c3_exit_status (items : List (Platform × PlatFetch)) (m : Manifest) :
    (buildAll none items m).exitCode = 1 ∧
    (buildAll (some "") items m).exitCode = 1 ∧
    (∀ v : String, ¬ v = "" → (∀ it ∈ items, buildOne it.1 it.2 ≠ OneOutcome.fatal) →
      (buildAll (some v) items m).exitCode = 0) ∧
    (∀ (p : Platform) (f : PlatFetch) (st : RunState) (rest : List (Platform × PlatFetch)),
      buildOne p f = OneOutcome.skipDownload →
      processPlatforms ((p, f) :: rest) st = processPlatforms rest st) ∧
    (∀ (p : Platform) (f : PlatFetch) (st : RunState) (rest : List (Platform × PlatFetch)),
      buildOne p f = OneOutcome.skipVerify →
      processPlatforms ((p, f) :: rest) st = processPlatforms rest st) := by
  refine ⟨rfl, rfl, ?_, ?_, ?_⟩
  · intro v hv hnf
    have hfc := processPlatforms_no_fatal items hnf ⟨[], [], none⟩
    simp only [buildAll, if_neg hv]
    rw [hfc]
  · intro p f st rest h
    simp [processPlatforms, h]
  · intro p f st rest h
    simp [processPlatforms, h]

/-- C3 witness: the amended statement at a concrete all-good run. -/
theorem c3_exit_status_witness :
    (buildAll (some "1.2.3") itemsAllGood sampleManifest).exitCode = 0 :=
  (c3_exit_status itemsAllGood sampleManifest).2.2.1 "1.2.3" (by decide) (by decide)

/-- C4: when a run with a non-empty version and all downloads succeeding
completes (exit status 0, so the loop was not aborted), the root manifest
has been rewritten in place after the platform loop: its version is the new
version and every optional-dependency entry equals it. -/
theorem c4_root_manifest_rewrite (v : String) (hv : ¬ v = "")
    (items : List (Platform × PlatFetch)) (m : Manifest)
    (_hdl : ∀ it ∈ items, it.2.cached = true ∨ it.2.downloadOk = true)
    (hdone : (buildAll (some v) items m).exitCode = 0) :
    (buildAll (some v) items m).manifest = updateManifest m v ∧
    (buildAll (some v) items m).manifest.version = v ∧
    (∀ kv ∈ (buildAll (some v) items m).manifest.optionalDependencies, kv.2 = v) := by
  have hm : (buildAll (some v) items m).manifest = updateManifest m v := by
    rcases processPlatforms_fatal_spec items ⟨[], [], none⟩ with h | h
    · simp only [buildAll, if_neg hv]
      rw [h]
    · exfalso
      simp only [buildAll, if_neg hv] at hdone
      rw [h] at hdone
      simp at hdone
  refine ⟨hm, ?_, ?_⟩
  · rw [hm]; rfl
  · intro kv hkv
    rw [hm] at hkv
    simp only [updateManifest, List.mem_map] at hkv
    obtain ⟨x, _, hx⟩ := hkv
    rw [← hx]

/-- C4 witness: the rewrite at a concrete all-success run. -/
theorem c4_root_manifest_rewrite_witness :
    (buildAll (some "1.2.3") itemsAllGood sampleManifest).manifest =
      updateManifest sampleManifest "1.2.3" :=
  (c4_root_manifest_rewrite "1.2.3" (by decide) itemsAllGood sampleManifest (by decide)
    (by decide)).1

/-- C5: the root-manifest version-update step is idempotent: updating an
already-updated manifest with the same version leaves the serialized file
byte-identical. -/
theorem c5_manifest_update_idempotent (m : Manifest) (v : String) :
    serializeManifest (updateManifest (updateManifest m v) v) =
      serializeManifest (updateManifest m v) := by
  have h : updateManifest (updateManifest m v) v = updateManifest m v := by
    simp [updateManifest, List.map_map, Function.comp]
  rw [h]

/-- A probe loop prefix whose directories hold neither the proper binary nor
the disguised one is skipped without touching anything. -/
theorem findBinaryFrom_skip_empty (env : Offline.Env) (ofs : Offline.FileSys)
    (tail : List String) :
    ∀ pre : List String,
    (∀ x ∈ pre, ((x, Offline.binaryName env.isWin) ∈ ofs.files → False) ∧
      ((x, "crush.bin") ∈ ofs.files → False)) →
    Offline.findBinaryFrom env ofs (pre ++ tail) = Offline.findBinaryFrom env ofs tail := by
  intro pre
  induction pre with
  | nil => intro _; rfl
  | cons x pre ih =>
    intro h
    have hx := h x (List.mem_cons_self x pre)
    simp only [List.cons_append, Offline.findBinaryFrom]
    rw [if_neg hx.1, if_neg hx.2]
    exact ih (fun y hy => h y (List.mem_cons_of_mem x hy))

/-- A probe loop over directories holding neither file resolves nothing and
leaves the filesystem untouched. -/
theorem findBinaryFrom_not_found (env : Offline.Env) (ofs : Offline.FileSys)
    (dirs : List String)
    (h : ∀ x ∈ dirs, ((x, Offline.binaryName env.isWin) ∈ ofs.files → False) ∧
      ((x, "crush.bin") ∈ ofs.files → False)) :
    Offline.findBinaryFrom env ofs dirs = (none, ofs) := by
  have h2 := findBinaryFrom_skip_empty env ofs [] dirs h
  simpa using h2

/-- The first candidate holding the properly named binary wins at once. -/
theorem findBinaryFrom_head_hit (env : Offline.Env) (ofs : Offline.FileSys)
    (d : String) (rest : List String)
    (h : (d, Offline.binaryName env.isWin) ∈ ofs.files) :
    Offline.findBinaryFrom env ofs (d :: rest) =
      (some (d, Offline.binaryName env.isWin), ofs) := by
  simp only [Offline.findBinaryFrom]
  rw [if_pos h]

/-- The earlier wrapper's probe returns the first existing candidate. -/
theorem corp_findBinary_first (fs : List String) :
    ∀ (pre : List String) (loc : String) (rest : List String),
    (∀ x ∈ pre, fs.contains x = false) → fs.contains loc = true →
    Corp.findBinary fs (pre ++ loc :: rest) = some loc := by
  intro pre
  induction pre with
  | nil =>
    intro loc rest _ hloc
    show List.find? (fun loc => fs.contains loc) (loc :: rest) = some loc
    exact List.find?_cons_of_pos _ hloc
  | cons x pre ih =>
    intro loc rest hpre hloc
    have hx := hpre x (List.mem_cons_self x pre)
    show List.find? (fun loc => fs.contains loc) (x :: (pre ++ loc :: rest)) = some loc
    rw [List.find?_cons_of_neg _ (by simp only [hx]; simp)]
    exact ih loc rest (fun y hy => hpre y (List.mem_cons_of_mem x hy)) hloc

/-- C6 counterexample: the later wrapper's candidate list holds only three
layout variants — the conventional nested dependency location is not among
them — and a filesystem holding the binary only at the conventional nested
location makes its resolution return the not-found signal. -/
theorem c6_counterexample :
    (Offline.baseDirs "D" "linux" "x64" (some "R")).length = 3 ∧
    "D/../../crush-linux-x64/bin" ∉ Offline.baseDirs "D" "linux" "x64" (some "R") ∧
    Offline.findBinaryFrom ⟨false, fun _ => false, fun _ => false⟩
        ⟨[("D/../../crush-linux-x64/bin", "crush")], []⟩
        (Offline.baseDirs "D" "linux" "x64" (some "R")) =
      (none, ⟨[("D/../../crush-linux-x64/bin", "crush")], []⟩) := by
  decide

/-- C6 amended: the earlier wrapper probes the four layout variants in order
(conventional nested, scoped, hoisted, registry-resolution) and returns the
first existing candidate or null; the later wrapper probes only three
(scoped, hoisted, registry-resolution), returns the first candidate
directory yielding a binary, and signals not-found, touching nothing, when
every candidate yields nothing. -/
theorem c6_candidate_layouts (d p a r : String) :
    Corp.locations d p a (some r) =
      [d ++ "/../../crush-corp-" ++ p ++ "-" ++ a ++ "/bin/" ++ Corp.binaryName p,
       d ++ "/../../@anthropic-ai/crush-corp-" ++ p ++ "-" ++ a ++ "/bin/" ++ Corp.binaryName p,
       d ++ "/../../../@anthropic-ai/crush-corp-" ++ p ++ "-" ++ a ++ "/bin/" ++ Corp.binaryName p,
       r ++ "/bin/" ++ Corp.binaryName p] ∧
    Offline.baseDirs d p a (some r) =
      [d ++ "/../../@offlinecli/crush-" ++ p ++ "-" ++ a ++ "/bin",
       d ++ "/../../../@offlinecli/crush-" ++ p ++ "-" ++ a ++ "/bin",
       r ++ "/bin"] ∧
    (∀ (fs : List String) (pre : List String) (loc : String) (rest : List String),
      (∀ x ∈ pre, fs.contains x = false) → fs.contains loc = true →
      Corp.findBinary fs (pre ++ loc :: rest) = some loc) ∧
    (∀ fs : List String, (∀ x ∈ Corp.locations d p a (some r), fs.contains x = false) →
      Corp.findBinary fs (Corp.locations d p a (some r)) = none) ∧
    (∀ (env : Offline.Env) (ofs : Offline.FileSys) (d0 : String) (rest : List String),
      (d0, Offline.binaryName env.isWin) ∈ ofs.files →
      Offline.findBinaryFrom env ofs (d0 :: rest) =
        (some (d0, Offline.binaryName env.isWin), ofs)) ∧
    (∀ (env : Offline.Env) (ofs : Offline.FileSys),
      (∀ x ∈ Offline.baseDirs d p a (some r),
        ((x, Offline.binaryName env.isWin) ∈ ofs.files → False) ∧
        ((x, "crush.bin") ∈ ofs.files → False)) →
      Offline.findBinaryFrom env ofs (Offline.baseDirs d p a (some r)) = (none, ofs)) := by
  refine ⟨rfl, rfl, ?_, ?_, ?_, ?_⟩
  · intro fs pre loc rest hpre hloc
    exact corp_findBinary_first fs pre loc rest hpre hloc
  · intro fs h
    exact List.find?_eq_none.mpr (fun x hx => by simp only [h x hx]; simp)
  · intro env ofs d0 rest h
    exact findBinaryFrom_head_hit env ofs d0 rest h
  · intro env ofs h
    exact findBinaryFrom_not_found env ofs _ h

/-- C6 witness: the later wrapper's not-found signal on an empty filesystem. -/
theorem c6_candidate_layouts_witness :
    Offline.findBinaryFrom ⟨false, fun _ => false, fun _ => false⟩ ⟨[], []⟩
      (Offline.baseDirs "D" "linux" "x64" (some "R")) = (none, ⟨[], []⟩) :=
  (c6_candidate_layouts "D" "linux" "x64" "R").2.2.2.2.2
    ⟨false, fun _ => false, fun _ => false⟩ ⟨[], []⟩ (by decide)

/-- C7: when the first candidate directory yielding anything holds both the
properly named binary and the disguised variant, resolution returns the
properly named binary's path and the filesystem is returned unchanged — the
disguised file is neither renamed nor chmodded nor deleted. -/
theorem c7_proper_binary_precedence (env : Offline.Env) (ofs : Offline.FileSys)
    (pre : List String) (d : String) (rest : List String)
    (hpre : ∀ x ∈ pre, ((x, Offline.binaryName env.isWin) ∈ ofs.files → False) ∧
      ((x, "crush.bin") ∈ ofs.files → False))
    (hfin : (d, Offline.binaryName env.isWin) ∈ ofs.files)
    (_hdis : (d, "crush.bin") ∈ ofs.files) :
    Offline.findBinaryFrom env ofs (pre ++ d :: rest) =
      (some (d, Offline.binaryName env.isWin), ofs) := by
  rw [findBinaryFrom_skip_empty env ofs (d :: rest) pre hpre]
  exact findBinaryFrom_head_hit env ofs d rest hfin

/-- C7 witness: precedence at a concrete directory holding both files. -/
theorem c7_proper_binary_precedence_witness :
    Offline.findBinaryFrom ⟨false, fun _ => false, fun _ => false⟩
      ⟨[("d", "crush"), ("d", "crush.bin")], []⟩ (["p"] ++ "d" :: []) =
      (some ("d", "crush"), ⟨[("d", "crush"), ("d", "crush.bin")], []⟩) :=
  c7_proper_binary_precedence ⟨false, fun _ => false, fun _ => false⟩
    ⟨[("d", "crush"), ("d", "crush.bin")], []⟩ ["p"] "d" []
    (by decide) (by decide) (by decide)

/-- C8 counterexample: on Windows, with only the disguised file present in
the single candidate directory and the rename failing, resolution does not
fall back to the disguised file: it returns the not-found signal and the
disguised file is left exactly as it was, neither chmodded nor returned for
direct execution. -/
theorem c8_counterexample :
    Offline.findBinaryFrom ⟨true, fun _ => true, fun _ => false⟩
        ⟨[("d", "crush.bin")], []⟩ ["d"] =
      (none, ⟨[("d", "crush.bin")], []⟩) := by
  decide

/-- C8 amended: on non-Windows platforms, when a candidate directory holds
only the disguised file, a successful rename followed by a successful chmod
yields the properly named path, existing and executable, with the disguised
file gone; when the rename fails, a successful chmod of the disguised file
yields the disguised path in place, still existing and made executable; and
when both the rename and that chmod fail — and always on Windows when the
rename fails — the candidate is skipped and resolution moves on. -/
theorem c8_disguised_resolution (env : Offline.Env) (ofs : Offline.FileSys)
    (d : String) (rest : List String)
    (hwin : env.isWin = false)
    (hfin : (d, "crush") ∈ ofs.files → False)
    (hdis : (d, "crush.bin") ∈ ofs.files) :
    (env.renameFails (d, "crush.bin") = false → env.chmodFails (d, "crush") = false →
      Offline.findBinaryFrom env ofs (d :: rest) =
        (some (d, "crush"),
          (((ofs.removeFile (d, "crush.bin")).addFile (d, "crush")).chmodx (d, "crush"))) ∧
      (d, "crush") ∈
        ((((ofs.removeFile (d, "crush.bin")).addFile (d, "crush")).chmodx (d, "crush"))).files ∧
      (d, "crush") ∈
        ((((ofs.removeFile (d, "crush.bin")).addFile (d, "crush")).chmodx (d, "crush"))).execs ∧
      ¬ (d, "crush.bin") ∈
        ((((ofs.removeFile (d, "crush.bin")).addFile (d, "crush")).chmodx (d, "crush"))).files) ∧
    (env.renameFails (d, "crush.bin") = true → env.chmodFails (d, "crush.bin") = false →
      Offline.findBinaryFrom env ofs (d :: rest) =
        (some (d, "crush.bin"), ofs.chmodx (d, "crush.bin")) ∧
      (d, "crush.bin") ∈ (ofs.chmodx (d, "crush.bin")).files ∧
      (d, "crush.bin") ∈ (ofs.chmodx (d, "crush.bin")).execs) ∧
    (env.renameFails (d, "crush.bin") = true → env.chmodFails (d, "crush.bin") = true →
      Offline.findBinaryFrom env ofs (d :: rest) = Offline.findBinaryFrom env ofs rest) := by
  have hbin : Offline.binaryName env.isWin = "crush" := by
    rw [hwin]; rfl
  refine ⟨?_, ?_, ?_⟩
  · intro hrn hcm
    refine ⟨?_, ?_, ?_, ?_⟩
    · simp only [Offline.findBinaryFrom, hbin]
      rw [if_neg hfin, if_pos hdis]
      simp [hrn, hwin, hcm]
    · simp [Offline.FileSys.chmodx, Offline.FileSys.addFile]
    · simp [Offline.FileSys.chmodx]
    · simp only [Offline.FileSys.chmodx, Offline.FileSys.addFile, Offline.FileSys.removeFile,
        List.mem_cons, List.mem_filter]
      intro hc
      rcases hc with hc | ⟨_, hc⟩
      · rw [Prod.mk.injEq] at hc
        exact absurd hc.2 (by decide)
      · simp at hc
  · intro hrn hcm
    refine ⟨?_, ?_, ?_⟩
    · simp only [Offline.findBinaryFrom, hbin]
      rw [if_neg hfin, if_pos hdis]
      simp [hrn, hwin, hcm]
    · simpa [Offline.FileSys.chmodx] using hdis
    · simp [Offline.FileSys.chmodx]
  · intro hrn hcm
    simp only [Offline.findBinaryFrom, hbin]
    rw [if_neg hfin, if_pos hdis]
    simp [hrn, hwin, hcm]

/-- C8 witness: the upgrade at a concrete directory where the rename
succeeds. -/
theorem c8_disguised_resolution_witness :
    Offline.findBinaryFrom ⟨false, fun _ => false, fun _ => false⟩
        ⟨[("d", "crush.bin")], []⟩ ["d"] =
      (some ("d", "crush"), ⟨[("d", "crush")], [("d", "crush")]⟩) := by
  have h := ((c8_disguised_resolution ⟨false, fun _ => false, fun _ => false⟩
      ⟨[("d", "crush.bin")], []⟩ "d" [] rfl (by decide) (by decide)).1 rfl rfl).1
  exact h.trans (by decide)

/-- C9: the launcher mirrors the child's lifecycle: a spawn error exits with
status 1 (non-zero); a normal child exit is mirrored with the same status,
defaulting to 1 when the status is indeterminate; a child killed by a signal
makes the launcher re-raise that same signal on itself instead of exiting;
and an interrupt, terminate or hangup signal received while the child runs
is forwarded to the child unchanged (and not once the child is gone). -/
theorem c9_child_lifecycle (c : Int) (cabs : Option Int) (s t : String)
    (hs : s ∈ forwardedSignals) :
    onChildError = ParentAction.exitWith 1 ∧ (1 : Int) ≠ 0 ∧
    onChildExit (some c) none = ParentAction.exitWith c ∧
    onChildExit none none = ParentAction.exitWith 1 ∧
    onChildExit cabs (some t) = ParentAction.raiseSignal t ∧
    onParentSignal false s = some s ∧
    onParentSignal true s = none := by
  refine ⟨rfl, by decide, rfl, rfl, rfl, ?_, ?_⟩
  · have hc : forwardedSignals.contains s = true := by
      simpa using hs
    simp [onParentSignal, hc, hs]
  · simp [onParentSignal]

/-- C9 witness: the lifecycle statement at concrete values. -/
theorem c9_child_lifecycle_witness :
    onChildExit (some 7) none = ParentAction.exitWith 7 ∧
    onParentSignal false "SIGINT" = some "SIGINT" :=
  ⟨(c9_child_lifecycle 7 (some 5) "SIGINT" "SIGKILL" (by decide)).2.2.1,
   (c9_child_lifecycle 7 (some 5) "SIGINT" "SIGKILL" (by decide)).2.2.2.2.2.1⟩

/-- C10: the quick subcommand is atomic on invalid input: a missing or empty
endpoint argument, or an unknown provider type, exits with status 1 before
any filesystem write, leaving the configuration state exactly as it was; the
configuration file is written, with exit status 0, exactly when an endpoint
argument is present and the provider type (defaulted to azure-foundry when
absent) is one of the four known templates. -/
theorem c10_counterexample :
    (Setup.quickSetup ["toString", "http://x/"] ⟨false, none⟩).exitCode = 0 ∧
    (Setup.quickSetup ["toString", "http://x/"] ⟨false, none⟩).threw = true ∧
    (Setup.quickSetup ["toString", "http://x/"] ⟨false, none⟩).state = ⟨false, none⟩ ∧
    "toString" ∉ Setup.knownProviderKeys := by
  decide

/-- C10 amended: no filesystem write happens on any invalid input — a
missing or empty endpoint, a provider type that is no key of the template
table at all, or a provider type naming an inherited Object.prototype
property all leave the configuration state exactly as it was; the first two
exit 1 before any write, but an inherited-key provider type slips past the
truthiness guard, throws a TypeError before any write, and the process ends
with status 0 once main's catch swallows it; the configuration file is
written, with a clean status-0 finish, exactly when an endpoint argument is
present and the (defaulted) provider type is one of the four own-key
templates. -/
theorem c10_quick_setup_atomic (args : List String) (st : Setup.ConfigState) :
    ((args[1]? = none ∨ args[1]? = some "" ∨
        (Setup.jsDefault args[0]? "azure-foundry" ∉ Setup.knownProviderKeys ∧
         Setup.jsDefault args[0]? "azure-foundry" ∉ Setup.objectProtoKeys)) →
      Setup.quickSetup args st = ⟨1, false, st⟩) ∧
    ((Setup.quickSetup args st).exitCode = 1 → (Setup.quickSetup args st).state = st) ∧
    ((Setup.quickSetup args st).threw = true →
      (Setup.quickSetup args st).exitCode = 0 ∧ (Setup.quickSetup args st).state = st) ∧
    ((Setup.quickSetup args st).exitCode = 0 ∧ (Setup.quickSetup args st).threw = false ↔
      ∃ ep, args[1]? = some ep ∧ ¬ ep = "" ∧
        Setup.jsDefault args[0]? "azure-foundry" ∈ Setup.knownProviderKeys) := by
  cases h1 : args[1]? with
  | none =>
    refine ⟨fun _ => by simp [Setup.quickSetup, h1],
      fun _ => by simp [Setup.quickSetup, h1],
      fun h => by simp [Setup.quickSetup, h1] at h, ?_⟩
    simp [Setup.quickSetup, h1]
  | some ep =>
    by_cases hep : ep = ""
    · subst hep
      refine ⟨fun _ => by simp [Setup.quickSetup, h1],
        fun _ => by simp [Setup.quickSetup, h1],
        fun h => by simp [Setup.quickSetup, h1] at h, ?_⟩
      simp [Setup.quickSetup, h1]
    · by_cases hk : Setup.jsDefault args[0]? "azure-foundry" ∈ Setup.knownProviderKeys
      · refine ⟨?_, ?_, ?_, ?_⟩
        · intro hbad
          rcases hbad with hbad | hbad | ⟨hbad, _⟩
          · cases hbad
          · exact absurd (Option.some.inj hbad) hep
          · exact absurd hk hbad
        · intro hcode
          exfalso
          simp [Setup.quickSetup, h1, hep, hk] at hcode
        · intro h
          exfalso
          simp [Setup.quickSetup, h1, hep, hk] at h
        · refine ⟨fun _ => ⟨ep, rfl, hep, hk⟩, fun _ => ?_⟩
          simp [Setup.quickSetup, h1, hep, hk]
      · by_cases hp : Setup.jsDefault args[0]? "azure-foundry" ∈ Setup.objectProtoKeys
        · refine ⟨?_, ?_, ?_, ?_⟩
          · intro hbad
            rcases hbad with hbad | hbad | ⟨_, hbad⟩
            · cases hbad
            · exact absurd (Option.some.inj hbad) hep
            · exact absurd hp hbad
          · intro hcode
            exfalso
            simp [Setup.quickSetup, h1, hep, hk, hp] at hcode
          · intro _
            constructor
            · simp [Setup.quickSetup, h1, hep, hk, hp]
            · simp [Setup.quickSetup, h1, hep, hk, hp]
          · refine ⟨fun hc => ?_, fun hex => ?_⟩
            · exfalso
              have h2 := hc.2
              simp [Setup.quickSetup, h1, hep, hk, hp] at h2
            · obtain ⟨ep2, _, _, hcontra⟩ := hex
              exact absurd hcontra hk
        · refine ⟨fun _ => by simp [Setup.quickSetup, h1, hep, hk, hp], ?_, ?_, ?_⟩
          · intro _
            simp [Setup.quickSetup, h1, hep, hk, hp]
          · intro h
            exfalso
            simp [Setup.quickSetup, h1, hep, hk, hp] at h
          · refine ⟨fun hc => ?_, fun hex => ?_⟩
            · exfalso
              have h2 := hc.1
              simp [Setup.quickSetup, h1, hep, hk, hp] at h2
            · obtain ⟨ep2, _, _, hcontra⟩ := hex
              exact absurd hcontra hk

/-- C10 witness: a provider type that is no key at all exits 1 and touches
nothing. -/
theorem c10_quick_setup_atomic_witness :
    Setup.quickSetup ["bogus", "http"] ⟨false, none⟩ = ⟨1, false, ⟨false, none⟩⟩ :=
  (c10_quick_setup_atomic ["bogus", "http"] ⟨false, none⟩).1
    (Or.inr (Or.inr ⟨by decide, by decide⟩))
